import Mathlib

/-!
Verification of the disruption planning subsystem (candidate eligibility,
consolidation command computation, spot-to-spot strategy, emptiness planner,
per-group disruption budgets) against its natural-language specification.

The Go sources embedded here are
`pkg/controllers/disruption/consolidation.go` and
`pkg/controllers/disruption/emptiness.go`.  External collaborators (the
scheduling simulator, the pricing catalog, the instance-type option set and
the requirements algebra) are not part of those files; where a claim needs
them they are modelled from the specification and marked as such.

Conventions of the embedding:
- Go `float64` prices become rationals.
- Go `time.Time` / `time.Duration` become integers (nanoseconds); the clock
  is passed as an explicit `now` argument.
- Go maps become association lists or functions with the zero-value default.
- `recorder.Publish` side effects become an explicit list of event strings
  returned next to the result.
- A nil-pointer dereference (a Go panic) is the `none` branch of an
  `Option` result.
-/

namespace Disruption

/-- `v1beta1.CapacityTypeSpot`. -/
def CapacityTypeSpot : String := "spot"

/-- `v1beta1.CapacityTypeOnDemand`. -/
def CapacityTypeOnDemand : String := "on-demand"

/-- `v1beta1.CapacityTypeLabelKey`. -/
def CapacityTypeLabelKey : String := "karpenter.sh/capacity-type"

/-- Zone topology label key used by offerings. -/
def ZoneLabelKey : String := "topology.kubernetes.io/zone"

/-- `v1alpha5.DoNotConsolidateNodeAnnotationKey`. -/
def DoNotConsolidateNodeAnnotationKey : String := "karpenter.sh/do-not-consolidate"

/-- `v1beta1.ConsolidationPolicyWhenUnderutilized`. -/
def ConsolidationPolicyWhenUnderutilized : String := "WhenUnderutilized"

/-- `v1beta1.ConsolidationPolicyWhenEmpty`. -/
def ConsolidationPolicyWhenEmpty : String := "WhenEmpty"

/-- `MinInstanceTypesForSpotToSpotConsolidation` (consolidation.go line 48). -/
def MinInstanceTypesForSpotToSpotConsolidation : Nat := 15

/-- One entry of the pricing catalog: a purchasable offering of an instance
type in a capacity class and zone, with its price. -/
structure Offering where
  capacityType : String
  zone : String
  price : ℚ
deriving DecidableEq, Repr

/-- A cloud-provider instance type: a name and its offerings. -/
structure InstanceType where
  name : String
  offerings : List Offering
deriving DecidableEq, Repr

/-- `Offerings.Get(capacityType, zone)`: the offering matching the capacity
type and zone, when one exists (the Go method returns `(Offering, ok)`). -/
def offeringsGet (offs : List Offering) (ct zone : String) : Option Offering :=
  offs.find? (fun o => o.capacityType == ct && o.zone == zone)

/-- Modelled from the spec: the requirement set of a replacement node
template, a mapping from label key to the list of allowed values (the
`scheduling.Requirements` type is outside the two source files). -/
abbrev Requirements := List (String × List String)

/-- Lookup of the entry for a key in a requirement set. -/
def reqLookup : Requirements → String → Option (List String)
  | [], _ => none
  | (k, vs) :: rest, key => if k = key then some vs else reqLookup rest key

/-- Modelled from the spec: `Requirements.Get(key).Has(value)`.  A key with
no entry is unconstrained and permits every value, so the absent
capacity-type requirement "still permits volatile capacity". -/
def reqHas (reqs : Requirements) (key value : String) : Bool :=
  match reqLookup reqs key with
  | none => true
  | some vs => vs.contains value

/-- Modelled from the spec: `Requirements.Add` of an `In` requirement
narrows the allowed values of the key to the intersection with the existing
entry (step 2 of the spot strategy: force the replacement requirement to
volatile capacity only). -/
def reqAdd : Requirements → String → List String → Requirements
  | [], key, vs => [(key, vs)]
  | (k, kvs) :: rest, key, vs =>
    if k = key then (k, kvs.filter (fun v => vs.contains v)) :: rest
    else (k, kvs) :: reqAdd rest key vs

/-- Modelled from the spec: an offering is compatible with a requirement set
when its capacity type and zone are permitted values. -/
def offeringCompatible (reqs : Requirements) (o : Offering) : Bool :=
  reqHas reqs CapacityTypeLabelKey o.capacityType && reqHas reqs ZoneLabelKey o.zone

/-- The disruption block of a node pool.  `consolidateAfter` mirrors the Go
double pointer `*NillableDuration` whose inner `Duration *time.Duration` may
itself be nil: the outer `Option` is field presence, the inner `Option` is
the duration pointer. -/
structure DisruptionSpec where
  consolidationPolicy : String
  consolidateAfter : Option (Option Int)
deriving DecidableEq, Repr

/-- The owning group (node pool) of a candidate, read-only here. -/
structure NodePool where
  name : String
  disruption : DisruptionSpec
deriving DecidableEq, Repr

/-- A status condition snapshot: whether it is currently true and when it
last transitioned. -/
structure StatusCondition where
  isTrue : Bool
  lastTransitionTime : Int
deriving DecidableEq, Repr

/-- A disruption candidate: a point-in-time snapshot of one node, its
workloads, its owning group and its purchasing dimensions.  `pods` carries
workload identifiers; only its length is consulted by the planners.
`emptyCondition` is the `Empty` readiness condition of the node claim when
that condition exists. -/
structure Candidate where
  annotations : List (String × String)
  nodePool : NodePool
  instanceType : InstanceType
  capacityType : String
  zone : String
  pods : List String
  disruptionCost : ℚ
  deletionTimestampIsZero : Bool
  emptyCondition : Option StatusCondition
deriving DecidableEq, Repr

/-- `cn.Annotations()[key]`: Go map access with the zero-value default. -/
def annGet (anns : List (String × String)) (key : String) : String :=
  (anns.lookup key).getD ""

/-- A replacement node template proposed by the simulator: its requirement
set and its ranked instance-type options. -/
structure NodeClaim where
  requirements : Requirements
  instanceTypeOptions : List InstanceType
deriving DecidableEq, Repr

/-- The planning output: candidates to remove plus replacement templates. -/
structure Command where
  candidates : List Candidate
  replacements : List NodeClaim
deriving DecidableEq, Repr

/-- `Command{}`: the empty, no-action command. -/
def Command.empty : Command := ⟨[], []⟩

/-- `consolidation.ShouldDisrupt` (consolidation.go lines 102-119).  The
returned list holds the user-visible events published on the exclusion
paths. -/
def consolidation.ShouldDisrupt (cn : Candidate) : Bool × List String :=
  if annGet cn.annotations DoNotConsolidateNodeAnnotationKey = "true" then
    (false, [DoNotConsolidateNodeAnnotationKey ++ " annotation exists"])
  else if cn.nodePool.disruption.consolidationPolicy ≠ ConsolidationPolicyWhenUnderutilized then
    (false, [])
  else
    match cn.nodePool.disruption.consolidateAfter with
    | some none =>
      (false, ["NodePool " ++ cn.nodePool.name ++ " has consolidation disabled"])
    | _ => (true, [])

/-- `Emptiness.ShouldDisrupt` (emptiness.go lines 48-61).  The result is
`none` when the Go code dereferences a nil pointer: with the policy guard
passed and `ConsolidateAfter` entirely absent, the cooldown comparison on
line 60 reads `ConsolidateAfter.Duration` through a nil pointer; the guard
on line 55 only covers the present-but-nil-duration case.  Go `&&`
short-circuits, so the comparison is only reached when the `Empty` condition
is currently true. -/
def Emptiness.ShouldDisrupt (now : Int) (c : Candidate) : Option (Bool × List String) :=
  if c.nodePool.disruption.consolidationPolicy ≠ ConsolidationPolicyWhenEmpty then
    some (false, [])
  else
    match c.nodePool.disruption.consolidateAfter with
    | some none =>
      some (false, ["NodePool " ++ c.nodePool.name ++ " has consolidation disabled"])
    | some (some d) =>
      match c.emptyCondition with
      | none => some (false, [])
      | some cond =>
        if cond.isTrue then
          some (decide (cond.lastTransitionTime + d ≤ now), [])
        else
          some (false, [])
    | none =>
      match c.emptyCondition with
      | none => some (false, [])
      | some cond => if cond.isTrue then none else some (false, [])

/-- Modelled from the spec: the price the pricing catalog associates with an
instance-type option for cheaper-than filtering and ascending ordering, the
lowest price among the offerings of the option that are compatible with the
requirement set (`filterByPrice` and the instance-type option set live
outside the two source files). -/
def optionLaunchPrice (reqs : Requirements) (it : InstanceType) : ℚ :=
  match (it.offerings.filter (fun o => offeringCompatible reqs o)).map Offering.price with
  | [] => 0
  | p :: ps => ps.foldl min p

/-- Price comparison on instance-type options under a requirement set. -/
def priceLE (reqs : Requirements) (a b : InstanceType) : Prop :=
  optionLaunchPrice reqs a ≤ optionLaunchPrice reqs b

instance (reqs : Requirements) : DecidableRel (priceLE reqs) := fun a b =>
  inferInstanceAs (Decidable (optionLaunchPrice reqs a ≤ optionLaunchPrice reqs b))

instance (reqs : Requirements) : IsTotal InstanceType (priceLE reqs) :=
  ⟨fun a b => le_total (optionLaunchPrice reqs a) (optionLaunchPrice reqs b)⟩

instance (reqs : Requirements) : IsTrans InstanceType (priceLE reqs) :=
  ⟨fun _ _ _ hab hbc => le_trans hab hbc⟩

/-- Modelled from the spec: `filterByPrice` keeps only the options strictly
cheaper than the threshold and returns them ordered ascending by price (the
spec supplies cheaper-than filtering and ascending ordering; step 7 of the
spot strategy truncates this list assuming ascending order). -/
def filterByPrice (options : List InstanceType) (reqs : Requirements) (maxPrice : ℚ) :
    List InstanceType :=
  List.insertionSort (priceLE reqs)
    (options.filter (fun it => decide (optionLaunchPrice reqs it < maxPrice)))

/-- Modelled from the spec: `InstanceTypeOptions.Compatible(reqs)` keeps the
options having at least one offering compatible with the requirement set. -/
def compatibleOptions (options : List InstanceType) (reqs : Requirements) :
    List InstanceType :=
  options.filter (fun it => it.offerings.any (fun o => offeringCompatible reqs o))

/-- `getCandidatePrices` (consolidation.go lines 274-284): the sum of the
offering prices of the candidates; the first candidate whose offering cannot
be found aborts with an error. -/
def getCandidatePrices : List Candidate → Except String ℚ
  | [] => .ok 0
  | c :: rest =>
    match offeringsGet c.instanceType.offerings c.capacityType c.zone with
    | none =>
      .error ("unable to determine offering for " ++ c.instanceType.name ++ "/" ++
        c.capacityType ++ "/" ++ c.zone)
    | some o =>
      match getCandidatePrices rest with
      | .error e => .error e
      | .ok p => .ok (o.price + p)

/-- The offering price of one candidate, zero when the offering is absent
(only used to state the sum computed by `getCandidatePrices`). -/
def candidateOfferingPrice (c : Candidate) : ℚ :=
  match offeringsGet c.instanceType.offerings c.capacityType c.zone with
  | some o => o.price
  | none => 0

/-- The scheduling result produced by the external simulator. -/
structure SimResults where
  allNonPendingPodsScheduled : Bool
  newNodeClaims : List NodeClaim
deriving Repr

/-- The error outcomes of `simulateScheduling`: the sentinel
`errCandidateDeleting`, or any other error. -/
inductive SimError where
  | candidateDeleting
  | other (msg : String)
deriving DecidableEq, Repr

/-- The requirement set of the spot replacement after line 223 of
consolidation.go forces the capacity type to spot. -/
def spotReqs (nc : NodeClaim) : Requirements :=
  reqAdd nc.requirements CapacityTypeLabelKey [CapacityTypeSpot]

/-- The price-filtered spot replacement option list of
`computeSpotToSpotConsolidation` (consolidation.go lines 223-229): options
compatible with spot offerings, then filtered to those strictly cheaper than
the candidate price, ascending by price. -/
def spotFilteredOptions (nc : NodeClaim) (candidatePrice : ℚ) : List InstanceType :=
  filterByPrice (compatibleOptions nc.instanceTypeOptions (spotReqs nc)) (spotReqs nc)
    candidatePrice

/-- `computeSpotToSpotConsolidation` (consolidation.go lines 211-271).  The
feature gate `options.FromContext(ctx).FeatureGates.SpotToSpotConsolidation`
is the first argument; the single proposed replacement claim is `nc`.  The
second component is the Go error, always nil on these paths. -/
def computeSpotToSpotConsolidation (spotToSpotEnabled : Bool)
    (candidates : List Candidate) (nc : NodeClaim) (candidatePrice : ℚ) :
    Command × Option String :=
  if !spotToSpotEnabled then (Command.empty, none)
  else
    let filtered := spotFilteredOptions nc candidatePrice
    if filtered.length = 0 then (Command.empty, none)
    else if candidates.length > 1 then
      ({ candidates := candidates,
         replacements := [{ requirements := spotReqs nc, instanceTypeOptions := filtered }] },
       none)
    else if filtered.length < MinInstanceTypesForSpotToSpotConsolidation then
      (Command.empty, none)
    else
      ({ candidates := candidates,
         replacements := [{ requirements := spotReqs nc,
                            instanceTypeOptions :=
                              filtered.take MinInstanceTypesForSpotToSpotConsolidation }] },
       none)

/-- `computeConsolidation` (consolidation.go lines 124-204).  The simulator
invocation is passed in as its outcome `sim`; the second component of the
result is the Go error value. -/
def computeConsolidation (spotToSpotEnabled : Bool) (sim : Except SimError SimResults)
    (candidates : List Candidate) : Command × Option String :=
  match sim with
  | .error .candidateDeleting => (Command.empty, none)
  | .error (.other msg) => (Command.empty, some msg)
  | .ok results =>
    if !results.allNonPendingPodsScheduled then (Command.empty, none)
    else
      match results.newNodeClaims with
      | [] => ({ candidates := candidates, replacements := [] }, none)
      | [nc] =>
        match getCandidatePrices candidates with
        | .error e =>
          (Command.empty, some ("getting offering price from candidate node, " ++ e))
        | .ok candidatePrice =>
          let allExistingAreSpot :=
            candidates.all (fun cn => cn.capacityType == CapacityTypeSpot)
          if allExistingAreSpot && reqHas nc.requirements CapacityTypeLabelKey CapacityTypeSpot then
            computeSpotToSpotConsolidation spotToSpotEnabled candidates nc candidatePrice
          else
            let filtered := filterByPrice nc.instanceTypeOptions nc.requirements candidatePrice
            if filtered.length = 0 then (Command.empty, none)
            else
              let newReqs :=
                if reqHas nc.requirements CapacityTypeLabelKey CapacityTypeSpot &&
                   reqHas nc.requirements CapacityTypeLabelKey CapacityTypeOnDemand then
                  reqAdd nc.requirements CapacityTypeLabelKey [CapacityTypeSpot]
                else nc.requirements
              ({ candidates := candidates,
                 replacements := [{ requirements := newReqs, instanceTypeOptions := filtered }] },
               none)
      | _ :: _ :: _ => (Command.empty, none)

/-- The loop body of `Emptiness.ComputeCommand` (emptiness.go lines 76-86):
skip candidates with pods, otherwise include the candidate and decrement the
budget of its pool when that budget is strictly positive. -/
def emptinessStep (acc : List Candidate × (String → Int)) (candidate : Candidate) :
    List Candidate × (String → Int) :=
  if candidate.pods.length > 0 then acc
  else if 0 < acc.2 candidate.nodePool.name then
    (acc.1 ++ [candidate],
     fun k => if k = candidate.nodePool.name then acc.2 k - 1 else acc.2 k)
  else acc

/-- `Emptiness.ComputeCommand` (emptiness.go lines 64-91).  The budget map
is a function with the Go zero-value default; the mutated map is returned
explicitly next to the command (the Go error result is always nil). -/
def Emptiness.ComputeCommand (disruptionBudgetMapping : String → Int)
    (candidates : List Candidate) : Command × (String → Int) :=
  let emptyCandidates := candidates.filter
    (fun cn => cn.deletionTimestampIsZero && cn.pods.length == 0)
  let r := emptyCandidates.foldl emptinessStep ([], disruptionBudgetMapping)
  ({ candidates := r.1, replacements := [] }, r.2)

/-! Concrete sample values used by witnesses and counterexamples. -/

/-- A sample spot candidate with a resolvable offering, an empty pod list
and an elapsed emptiness cooldown. -/
def sampleCandidate : Candidate :=
  { annotations := [],
    nodePool := { name := "g",
                  disruption := { consolidationPolicy := ConsolidationPolicyWhenEmpty,
                                  consolidateAfter := some (some 5) } },
    instanceType := { name := "m5.large",
                      offerings := [{ capacityType := "spot", zone := "z1", price := 3 }] },
    capacityType := "spot", zone := "z1", pods := [], disruptionCost := 1,
    deletionTimestampIsZero := true,
    emptyCondition := some { isTrue := true, lastTransitionTime := 0 } }

/-- A spot instance type with a single spot offering in zone z1. -/
def sampleIT (n : String) (p : ℚ) : InstanceType :=
  { name := n, offerings := [{ capacityType := "spot", zone := "z1", price := p }] }

/-- A replacement claim offering sixteen spot instance types priced 0..15. -/
def sampleSpotClaim : NodeClaim :=
  { requirements := [(CapacityTypeLabelKey, [CapacityTypeSpot, CapacityTypeOnDemand])],
    instanceTypeOptions := (List.range 16).map (fun i => sampleIT (toString i) i) }

/-- A simulation result proposing two replacement claims. -/
def sampleTwoClaimResults : SimResults :=
  { allNonPendingPodsScheduled := true,
    newNodeClaims := [{ requirements := [], instanceTypeOptions := [] },
                      { requirements := [], instanceTypeOptions := [] }] }

/-- A simulation result proposing one replacement claim. -/
def sampleOneClaimResults : SimResults :=
  { allNonPendingPodsScheduled := true,
    newNodeClaims := [{ requirements := [], instanceTypeOptions := [] }] }

/-- A candidate whose instance type has no offerings, so its price lookup
fails. -/
def missingOfferingCandidate : Candidate :=
  { sampleCandidate with instanceType := { name := "x1.huge", offerings := [] } }

/-! Theorems for the claims. -/

/-- C2: for every candidate set on which the simulator succeeds with all
non-pending workloads scheduled and zero new replacement nodes,
computeConsolidation returns, with no error, a Command whose candidates
field is exactly the input candidate set and whose replacements field is
empty. -/
theorem computeConsolidation_delete_only (fe : Bool) (results : SimResults)
    (cs : List Candidate) (hs : results.allNonPendingPodsScheduled = true)
    (hz : results.newNodeClaims = []) :
    computeConsolidation fe (.ok results) cs =
      ({ candidates := cs, replacements := [] }, none) := by
  simp [computeConsolidation, hs, hz]

theorem computeConsolidation_delete_only_witness :
    sampleOneClaimResults.allNonPendingPodsScheduled = true
    ∧ computeConsolidation true
        (.ok { allNonPendingPodsScheduled := true, newNodeClaims := [] })
        [sampleCandidate] =
      ({ candidates := [sampleCandidate], replacements := [] }, none) :=
  ⟨rfl, computeConsolidation_delete_only true _ [sampleCandidate] rfl rfl⟩

/-- Replacement count of the spot-to-spot result never exceeds one. -/
theorem spotToSpot_replacements_le_one (fe : Bool) (cs : List Candidate)
    (nc : NodeClaim) (p : ℚ) :
    ((computeSpotToSpotConsolidation fe cs nc p).1).replacements.length ≤ 1 := by
  unfold computeSpotToSpotConsolidation
  dsimp only
  split_ifs <;> simp [Command.empty]

/-- C3: for every candidate set on which the simulator succeeds with all
non-pending workloads scheduled but proposes two or more replacement nodes,
computeConsolidation returns an empty Command and no error; and every
command computeConsolidation produces carries at most one replacement. -/
theorem computeConsolidation_replacement_bound :
    (∀ (fe : Bool) (results : SimResults) (cs : List Candidate),
        results.allNonPendingPodsScheduled = true →
        2 ≤ results.newNodeClaims.length →
        computeConsolidation fe (.ok results) cs = (Command.empty, none))
    ∧ ∀ (fe : Bool) (sim : Except SimError SimResults) (cs : List Candidate),
        ((computeConsolidation fe sim cs).1).replacements.length ≤ 1 := by
  constructor
  · intro fe results cs hs hlen
    rcases hnn : results.newNodeClaims with _ | ⟨nc, _ | ⟨nc2, rest⟩⟩
    · rw [hnn] at hlen; simp at hlen
    · rw [hnn] at hlen; simp at hlen
    · simp [computeConsolidation, hs, hnn]
  · intro fe sim cs
    unfold computeConsolidation
    split
    · simp [Command.empty]
    · simp [Command.empty]
    · split_ifs with hps
      · simp [Command.empty]
      · split
        · simp
        · split
          · simp [Command.empty]
          · dsimp only
            split
            · apply spotToSpot_replacements_le_one
            · split <;> simp [Command.empty]
        · simp [Command.empty]

theorem computeConsolidation_replacement_bound_witness :
    sampleTwoClaimResults.allNonPendingPodsScheduled = true
    ∧ 2 ≤ sampleTwoClaimResults.newNodeClaims.length
    ∧ computeConsolidation true (.ok sampleTwoClaimResults) [sampleCandidate] =
        (Command.empty, none)
    ∧ ((computeConsolidation true (.ok sampleTwoClaimResults) [sampleCandidate]).1).replacements.length ≤ 1 := by
  refine ⟨rfl, by decide, ?_, ?_⟩
  · exact computeConsolidation_replacement_bound.1 true sampleTwoClaimResults
      [sampleCandidate] rfl (by decide)
  · exact computeConsolidation_replacement_bound.2 true (.ok sampleTwoClaimResults)
      [sampleCandidate]

/-- C9: the sentinel simulator error for a candidate already being torn down
yields an empty Command and a nil error; every other simulator error is
propagated with an empty Command. -/
theorem computeConsolidation_simulator_errors (fe : Bool) (cs : List Candidate) :
    computeConsolidation fe (.error .candidateDeleting) cs = (Command.empty, none)
    ∧ ∀ msg, computeConsolidation fe (.error (.other msg)) cs = (Command.empty, some msg) :=
  ⟨rfl, fun _ => rfl⟩

theorem getCandidatePrices_ok (cs : List Candidate)
    (h : ∀ c ∈ cs, offeringsGet c.instanceType.offerings c.capacityType c.zone ≠ none) :
    getCandidatePrices cs = .ok ((cs.map candidateOfferingPrice).sum) := by
  induction cs with
  | nil => simp [getCandidatePrices]
  | cons c rest ih =>
    have hc := h c (by simp)
    rcases ho : offeringsGet c.instanceType.offerings c.capacityType c.zone with _ | o
    · exact absurd ho hc
    · have hrest := ih (fun x hx => h x (List.mem_cons_of_mem c hx))
      simp [getCandidatePrices, ho, hrest, candidateOfferingPrice]

theorem getCandidatePrices_error (cs : List Candidate)
    (h : ∃ c ∈ cs, offeringsGet c.instanceType.offerings c.capacityType c.zone = none) :
    ∃ e, getCandidatePrices cs = .error e := by
  induction cs with
  | nil => simp at h
  | cons c rest ih =>
    rcases ho : offeringsGet c.instanceType.offerings c.capacityType c.zone with _ | o
    · exact ⟨"unable to determine offering for " ++ c.instanceType.name ++ "/" ++
        c.capacityType ++ "/" ++ c.zone, by simp [getCandidatePrices, ho]⟩
    · obtain ⟨x, hx, hxo⟩ := h
      rcases List.mem_cons.mp hx with rfl | hxr
      · rw [ho] at hxo; cases hxo
      · obtain ⟨e, he⟩ := ih ⟨x, hxr, hxo⟩
        exact ⟨e, by simp [getCandidatePrices, ho, he]⟩

/-- C4: when the simulation proposes exactly one replacement,
computeConsolidation sums each candidate offering price; a candidate whose
offering cannot be found makes computeConsolidation return an empty Command
together with a non-nil error. -/
theorem computeConsolidation_missing_offering_error :
    (∀ cs : List Candidate,
        (∀ c ∈ cs, offeringsGet c.instanceType.offerings c.capacityType c.zone ≠ none) →
        getCandidatePrices cs = .ok ((cs.map candidateOfferingPrice).sum))
    ∧ ∀ (fe : Bool) (results : SimResults) (cs : List Candidate),
        results.allNonPendingPodsScheduled = true →
        results.newNodeClaims.length = 1 →
        (∃ c ∈ cs, offeringsGet c.instanceType.offerings c.capacityType c.zone = none) →
        (computeConsolidation fe (.ok results) cs).1 = Command.empty
        ∧ ((computeConsolidation fe (.ok results) cs).2).isSome = true := by
  refine ⟨getCandidatePrices_ok, ?_⟩
  intro fe results cs hs hlen hmiss
  rcases hnn : results.newNodeClaims with _ | ⟨nc, _ | _⟩
  · rw [hnn] at hlen; simp at hlen
  · obtain ⟨e, he⟩ := getCandidatePrices_error cs hmiss
    constructor <;> simp [computeConsolidation, hs, hnn, he, Command.empty]
  · rw [hnn] at hlen; simp at hlen

theorem computeConsolidation_missing_offering_error_witness :
    getCandidatePrices [sampleCandidate] =
      .ok (([sampleCandidate].map candidateOfferingPrice).sum)
    ∧ (computeConsolidation true (.ok sampleOneClaimResults) [missingOfferingCandidate]).1 =
        Command.empty
    ∧ ((computeConsolidation true (.ok sampleOneClaimResults) [missingOfferingCandidate]).2).isSome = true := by
  have h := computeConsolidation_missing_offering_error
  refine ⟨h.1 [sampleCandidate] (by decide), ?_, ?_⟩
  · exact (h.2 true sampleOneClaimResults [missingOfferingCandidate] rfl (by decide)
      ⟨missingOfferingCandidate, by simp, by decide⟩).1
  · exact (h.2 true sampleOneClaimResults [missingOfferingCandidate] rfl (by decide)
      ⟨missingOfferingCandidate, by simp, by decide⟩).2

/-- C1: single-candidate spot-to-spot consolidation with the feature
enabled: with exactly 14 price-filtered cheaper options the function
returns an empty Command; with 15 or more it returns a Command whose single
replacement carries the first 15 of the filtered list, hence exactly 15
options, ordered ascending by price, and every retained option is at most
as expensive as every dropped one (the 15 cheapest). -/
theorem spotToSpot_single_candidate_flexibility (cand : Candidate) (nc : NodeClaim)
    (price : ℚ) :
    ((spotFilteredOptions nc price).length = 14 →
      computeSpotToSpotConsolidation true [cand] nc price = (Command.empty, none))
    ∧ (15 ≤ (spotFilteredOptions nc price).length →
      computeSpotToSpotConsolidation true [cand] nc price =
        ({ candidates := [cand],
           replacements := [{ requirements := spotReqs nc,
                              instanceTypeOptions := (spotFilteredOptions nc price).take 15 }] },
         none)
      ∧ ((spotFilteredOptions nc price).take 15).length = 15
      ∧ List.Sorted (priceLE (spotReqs nc)) ((spotFilteredOptions nc price).take 15)
      ∧ ∀ x ∈ (spotFilteredOptions nc price).take 15,
          ∀ y ∈ (spotFilteredOptions nc price).drop 15,
            optionLaunchPrice (spotReqs nc) x ≤ optionLaunchPrice (spotReqs nc) y) := by
  have hsorted : List.Sorted (priceLE (spotReqs nc)) (spotFilteredOptions nc price) := by
    unfold spotFilteredOptions filterByPrice
    exact List.sorted_insertionSort (priceLE (spotReqs nc)) _
  constructor
  · intro h14
    simp [computeSpotToSpotConsolidation, h14, MinInstanceTypesForSpotToSpotConsolidation]
  · intro h15
    have hne : ¬ (spotFilteredOptions nc price).length = 0 := by omega
    have hnlt : ¬ (spotFilteredOptions nc price).length < 15 := by omega
    refine ⟨?_, ?_, ?_, ?_⟩
    · simp [computeSpotToSpotConsolidation, hne, hnlt,
        MinInstanceTypesForSpotToSpotConsolidation]
    · simp only [List.length_take]
      omega
    · exact hsorted.sublist (List.take_sublist 15 _)
    · have hsplit := hsorted
      rw [← List.take_append_drop 15 (spotFilteredOptions nc price)] at hsplit
      exact fun x hx y hy => (List.pairwise_append.mp hsplit).2.2 x hx y hy

theorem spotToSpot_single_candidate_flexibility_witness :
    ((spotFilteredOptions sampleSpotClaim 14).length = 14
      ∧ computeSpotToSpotConsolidation true [sampleCandidate] sampleSpotClaim 14 =
          (Command.empty, none))
    ∧ (15 ≤ (spotFilteredOptions sampleSpotClaim 1000).length
      ∧ computeSpotToSpotConsolidation true [sampleCandidate] sampleSpotClaim 1000 =
          ({ candidates := [sampleCandidate],
             replacements := [{ requirements := spotReqs sampleSpotClaim,
                                instanceTypeOptions :=
                                  (spotFilteredOptions sampleSpotClaim 1000).take 15 }] },
           none)) :=
  ⟨⟨by decide,
    (spotToSpot_single_candidate_flexibility sampleCandidate sampleSpotClaim 14).1 (by decide)⟩,
   ⟨by decide,
    ((spotToSpot_single_candidate_flexibility sampleCandidate sampleSpotClaim 1000).2
      (by decide)).1⟩⟩

/-- A candidate carrying the do-not-consolidate marker whose group policy is
WhenEmpty, with an elapsed emptiness cooldown. -/
def markedEmptyCandidate : Candidate :=
  { sampleCandidate with annotations := [(DoNotConsolidateNodeAnnotationKey, "true")] }

/-- C5 counterexample: a candidate carrying the explicit do-not-consolidate
marker for which Emptiness.ShouldDisrupt nevertheless returns true with no
event: the emptiness predicate never consults the marker, refuting the
claim that each disruption method excludes marked candidates. -/
theorem emptiness_ignores_marker_cex :
    annGet markedEmptyCandidate.annotations DoNotConsolidateNodeAnnotationKey = "true"
    ∧ Emptiness.ShouldDisrupt 100 markedEmptyCandidate = some (true, []) := by decide

/-- C5 (amended): for every candidate carrying the explicit
do-not-consolidate marker, the consolidation ShouldDisrupt predicate
returns false and emits the user-visible marker event, this rule being
checked first, before any policy check; the emptiness predicate does not
consult the marker. -/
theorem consolidation_marker_excludes (cn : Candidate)
    (h : annGet cn.annotations DoNotConsolidateNodeAnnotationKey = "true") :
    consolidation.ShouldDisrupt cn =
      (false, [DoNotConsolidateNodeAnnotationKey ++ " annotation exists"]) := by
  simp [consolidation.ShouldDisrupt, h]

theorem consolidation_marker_excludes_witness :
    annGet markedEmptyCandidate.annotations DoNotConsolidateNodeAnnotationKey = "true"
    ∧ consolidation.ShouldDisrupt markedEmptyCandidate =
        (false, [DoNotConsolidateNodeAnnotationKey ++ " annotation exists"]) :=
  ⟨by decide, consolidation_marker_excludes markedEmptyCandidate (by decide)⟩

/-- A candidate whose group disables consolidation via a present-but-nil
consolidateAfter and whose policy is WhenEmpty. -/
def disabledWhenEmptyCandidate : Candidate :=
  { sampleCandidate with
      nodePool := { name := "p",
                    disruption := { consolidationPolicy := ConsolidationPolicyWhenEmpty,
                                    consolidateAfter := some none } } }

/-- A candidate whose group disables consolidation via a present-but-nil
consolidateAfter while its policy is absent (neither method matches). -/
def absentPolicyCandidate : Candidate :=
  { sampleCandidate with
      nodePool := { name := "p",
                    disruption := { consolidationPolicy := "",
                                    consolidateAfter := some none } } }

/-- C6 counterexample: with consolidateAfter present-but-nil and the group
policy absent, both predicates return false yet neither emits any
user-visible reason; the policy-mismatch exclusions are silent, refuting
the unconditional "a user-visible reason is emitted". -/
theorem consolidateAfter_disabled_silent_cex :
    absentPolicyCandidate.nodePool.disruption.consolidateAfter = some none
    ∧ consolidation.ShouldDisrupt absentPolicyCandidate = (false, [])
    ∧ Emptiness.ShouldDisrupt 0 absentPolicyCandidate = some (false, []) := by decide

/-- C6 (amended): for every candidate whose group consolidateAfter is
present with nil inner duration, both predicates return false, regardless
of cost or emptiness; the user-visible disabled reason is emitted by the
method whose policy check passes (consolidation when the policy is
WhenUnderutilized, emptiness when it is WhenEmpty), while policy-mismatch
exclusions stay silent. -/
theorem consolidateAfter_disabled_excludes (cn : Candidate) (now : Int)
    (h : cn.nodePool.disruption.consolidateAfter = some none) :
    (consolidation.ShouldDisrupt cn).1 = false
    ∧ (Emptiness.ShouldDisrupt now cn).map Prod.fst = some false
    ∧ (cn.nodePool.disruption.consolidationPolicy = ConsolidationPolicyWhenUnderutilized →
        (consolidation.ShouldDisrupt cn).2 ≠ [])
    ∧ (cn.nodePool.disruption.consolidationPolicy = ConsolidationPolicyWhenEmpty →
        Emptiness.ShouldDisrupt now cn =
          some (false, ["NodePool " ++ cn.nodePool.name ++ " has consolidation disabled"])) := by
  refine ⟨?_, ?_, ?_, ?_⟩
  · by_cases hm : annGet cn.annotations DoNotConsolidateNodeAnnotationKey = "true"
    · simp [consolidation.ShouldDisrupt, hm]
    · by_cases hp : cn.nodePool.disruption.consolidationPolicy =
          ConsolidationPolicyWhenUnderutilized
      · simp [consolidation.ShouldDisrupt, hm, hp, h]
      · simp [consolidation.ShouldDisrupt, hm, hp]
  · by_cases hp : cn.nodePool.disruption.consolidationPolicy = ConsolidationPolicyWhenEmpty
    · simp [Emptiness.ShouldDisrupt, hp, h]
    · simp [Emptiness.ShouldDisrupt, hp]
  · intro hp
    by_cases hm : annGet cn.annotations DoNotConsolidateNodeAnnotationKey = "true"
    · simp [consolidation.ShouldDisrupt, hm]
    · simp [consolidation.ShouldDisrupt, hm, hp, h]
  · intro hp
    simp [Emptiness.ShouldDisrupt, hp, h]

theorem consolidateAfter_disabled_excludes_witness :
    disabledWhenEmptyCandidate.nodePool.disruption.consolidateAfter = some none
    ∧ (consolidation.ShouldDisrupt disabledWhenEmptyCandidate).1 = false
    ∧ (Emptiness.ShouldDisrupt 0 disabledWhenEmptyCandidate).map Prod.fst = some false
    ∧ Emptiness.ShouldDisrupt 0 disabledWhenEmptyCandidate =
        some (false, ["NodePool " ++ disabledWhenEmptyCandidate.nodePool.name ++
          " has consolidation disabled"]) := by
  have h := consolidateAfter_disabled_excludes disabledWhenEmptyCandidate 0 (by decide)
  exact ⟨by decide, h.1, h.2.1, h.2.2.2 (by decide)⟩

/-- C7: given three same-group candidates with zero bound pods and no
pending deletion and that group budget equal to 2,
Emptiness.ComputeCommand returns exactly the first two in input order,
with no replacements, and decrements the group budget entry to 0. -/
theorem emptiness_budget_two_of_three (g : String) (budget : String → Int)
    (a b c : Candidate)
    (hna : a.nodePool.name = g) (hnb : b.nodePool.name = g) (hnc : c.nodePool.name = g)
    (hpa : a.pods = []) (hpb : b.pods = []) (hpc : c.pods = [])
    (hda : a.deletionTimestampIsZero = true) (hdb : b.deletionTimestampIsZero = true)
    (hdc : c.deletionTimestampIsZero = true)
    (hbud : budget g = 2) :
    (Emptiness.ComputeCommand budget [a, b, c]).1 =
      { candidates := [a, b], replacements := [] }
    ∧ (Emptiness.ComputeCommand budget [a, b, c]).2 g = 0 := by
  constructor <;>
    simp [Emptiness.ComputeCommand, emptinessStep, hna, hnb, hnc, hpa, hpb, hpc,
      hda, hdb, hdc, hbud]

/-- The concrete budget mapping used by the emptiness witnesses. -/
def twoBudget : String → Int := fun k => if k = "g" then 2 else 0

theorem emptiness_budget_two_of_three_witness :
    (Emptiness.ComputeCommand twoBudget [sampleCandidate, sampleCandidate, sampleCandidate]).1 =
      { candidates := [sampleCandidate, sampleCandidate], replacements := [] }
    ∧ (Emptiness.ComputeCommand twoBudget
        [sampleCandidate, sampleCandidate, sampleCandidate]).2 "g" = 0 :=
  emptiness_budget_two_of_three "g" twoBudget sampleCandidate sampleCandidate sampleCandidate
    rfl rfl rfl rfl rfl rfl rfl rfl rfl (by decide)

theorem emptinessFold_budget (k : String) (l : List Candidate) :
    ∀ acc : List Candidate × (String → Int),
      (l.foldl emptinessStep acc).2 k ≤ acc.2 k
      ∧ (acc.2 k ≤ 0 → (l.foldl emptinessStep acc).2 k = acc.2 k)
      ∧ (0 ≤ acc.2 k → 0 ≤ (l.foldl emptinessStep acc).2 k) := by
  induction l with
  | nil => exact fun acc => ⟨le_refl _, fun _ => rfl, fun h0 => h0⟩
  | cons c l ih =>
    intro acc
    rw [List.foldl_cons]
    have hstep : (emptinessStep acc c).2 k ≤ acc.2 k
        ∧ (acc.2 k ≤ 0 → (emptinessStep acc c).2 k = acc.2 k)
        ∧ (0 ≤ acc.2 k → 0 ≤ (emptinessStep acc c).2 k) := by
      unfold emptinessStep
      split_ifs with hpods hbud
      · exact ⟨le_refl _, fun _ => rfl, fun h0 => h0⟩
      · by_cases hk : k = c.nodePool.name
        · subst hk
          refine ⟨by simp, fun h0 => absurd hbud (by omega), fun h0 => by simp; omega⟩
        · exact ⟨by simp [hk], fun _ => by simp [hk], fun h0 => by simpa [hk] using h0⟩
      · exact ⟨le_refl _, fun _ => rfl, fun h0 => h0⟩
    obtain ⟨i1, i2, i3⟩ := ih (emptinessStep acc c)
    refine ⟨le_trans i1 hstep.1, fun h0 => ?_, fun h0 => i3 (hstep.2.2 h0)⟩
    have heq := hstep.2.1 h0
    rw [i2 (by omega), heq]

/-- C8: for every initial budget mapping and candidate list,
Emptiness.ComputeCommand only ever decrements budget entries, leaves a
nonpositive entry untouched (strict greater-than-zero test), and never
drives a non-negative entry negative. -/
theorem emptiness_budget_monotone (budget : String → Int) (cs : List Candidate)
    (k : String) :
    (Emptiness.ComputeCommand budget cs).2 k ≤ budget k
    ∧ (budget k ≤ 0 → (Emptiness.ComputeCommand budget cs).2 k = budget k)
    ∧ (0 ≤ budget k → 0 ≤ (Emptiness.ComputeCommand budget cs).2 k) := by
  unfold Emptiness.ComputeCommand
  exact emptinessFold_budget k _ ([], budget)

theorem emptiness_budget_monotone_witness :
    (Emptiness.ComputeCommand (fun _ => 0) [sampleCandidate]).2 "g" ≤ 0
    ∧ (Emptiness.ComputeCommand (fun _ => 0) [sampleCandidate]).2 "g" = 0
    ∧ 0 ≤ (Emptiness.ComputeCommand (fun _ => 0) [sampleCandidate]).2 "g" := by
  have h := emptiness_budget_monotone (fun _ => 0) [sampleCandidate] "g"
  exact ⟨h.1, h.2.1 (by decide), h.2.2 (by decide)⟩

/-- C10: Emptiness.ShouldDisrupt hits the nil-pointer branch exactly when
the policy is WhenEmpty, ConsolidateAfter is entirely absent, and the Empty
condition is currently true (Go short-circuits the conjunction); in
particular it is total whenever ConsolidateAfter is non-nil, and the error
branch is reachable since the guard only covers the present-but-nil case. -/
theorem emptiness_shouldDisrupt_panic_characterization (now : Int) (c : Candidate) :
    Emptiness.ShouldDisrupt now c = none ↔
      c.nodePool.disruption.consolidationPolicy = ConsolidationPolicyWhenEmpty
      ∧ c.nodePool.disruption.consolidateAfter = none
      ∧ ∃ cond, c.emptyCondition = some cond ∧ cond.isTrue = true := by
  by_cases hp : c.nodePool.disruption.consolidationPolicy = ConsolidationPolicyWhenEmpty
  · rcases hca : c.nodePool.disruption.consolidateAfter with _ | (_ | d)
    · rcases hec : c.emptyCondition with _ | cond
      · simp [Emptiness.ShouldDisrupt, hp, hca, hec]
      · by_cases ht : cond.isTrue <;>
          simp [Emptiness.ShouldDisrupt, hp, hca, hec, ht]
    · simp [Emptiness.ShouldDisrupt, hp, hca]
    · rcases hec : c.emptyCondition with _ | cond
      · simp [Emptiness.ShouldDisrupt, hp, hca, hec]
      · by_cases ht : cond.isTrue <;>
          simp [Emptiness.ShouldDisrupt, hp, hca, hec, ht]
  · simp [Emptiness.ShouldDisrupt, hp]

/-- A WhenEmpty candidate whose ConsolidateAfter field is entirely absent
and whose Empty condition is true: evaluating the predicate on it reaches
the nil-pointer branch. -/
def absentConsolidateAfterCandidate : Candidate :=
  { sampleCandidate with
      nodePool := { name := "g",
                    disruption := { consolidationPolicy := ConsolidationPolicyWhenEmpty,
                                    consolidateAfter := none } } }

theorem emptiness_shouldDisrupt_panic_witness :
    Emptiness.ShouldDisrupt 0 absentConsolidateAfterCandidate = none :=
  (emptiness_shouldDisrupt_panic_characterization 0 absentConsolidateAfterCandidate).mpr
    ⟨rfl, rfl, ⟨{ isTrue := true, lastTransitionTime := 0 }, rfl, rfl⟩⟩

end Disruption
